import Mathlib

/-!
Shallow embedding of `src/crowd_code_player/replay_file.py` (crowd-code-player).

Strings are modelled as `List Char`; Python `int` as `Int`; a possibly-NaN
CSV cell as `Option _` (with `none` playing the role of NaN / missing value).
Python slice indices (which clamp, and count from the end when negative) are
modelled by `pyIdx`.
-/

namespace CrowdCodePlayer

/-- Python slice-index normalisation: for a sequence of length `n`, the slice
bound `i` means `max 0 (n + i)` when `i < 0`, and `min i n` otherwise.
Used for `content[:offset]`, `content[offset+length:]` and for the
`start`/`end` arguments of `str.count` / `str.rfind`. -/
def pyIdx (n : Nat) (i : Int) : Nat :=
  if i < 0 then ((n : Int) + i).toNat else min i.toNat n

/-- One pass of Python `str.replace(a ++ b, r)` for a two-character pattern
`ab` and one-character replacement `r`: scan left to right, replacing
non-overlapping occurrences. -/
def replacePair (a b r : Char) : List Char → List Char
  | [] => []
  | [x] => [x]
  | x :: y :: rest =>
    if x = a ∧ y = b then r :: replacePair a b r rest
    else x :: replacePair a b r (y :: rest)

/-- `new_text.replace('\\n', '\n').replace('\\r', '\r')` from
`apply_change` (replay_file.py line 30) and the terminal branch (line 95):
decode the literal two-character escapes, `\n` first, then `\r`. -/
def decodeText (t : List Char) : List Char :=
  replacePair '\\' 'r' '\r' (replacePair '\\' 'n' '\n' t)

/-- `str(new_text) if pd.notna(new_text) else ""` (line 26 / line 93):
a missing (NaN) `Text` cell becomes the empty string. -/
def textOrEmpty : Option (List Char) → List Char
  | some t => t
  | none => []

/-- Lines 32-33 of `apply_change`: right-pad the content with spaces when
`offset > len(content)`. -/
def padded (content : List Char) (offset : Int) : List Char :=
  if (content.length : Int) < offset then
    content ++ List.replicate (offset - (content.length : Int)).toNat ' '
  else content

/-- `apply_change(content, offset, length, new_text)` (lines 23-35):
decode escapes, right-pad with spaces when `offset > len(content)`, then
splice: `content[:offset] + new_text + content[offset + length:]`
with Python slice semantics. -/
def apply_change (content : List Char) (offset length : Int)
    (new_text : Option (List Char)) : List Char :=
  (padded content offset).take (pyIdx (padded content offset).length offset)
    ++ decodeText (textOrEmpty new_text)
    ++ (padded content offset).drop (pyIdx (padded content offset).length (offset + length))

/-- Index of the last occurrence of `c` in `t`, if any. -/
def rfindAux (c : Char) : List Char → Option Nat
  | [] => none
  | x :: xs =>
    match rfindAux c xs with
    | some i => some (i + 1)
    | none => if x = c then some 0 else none

/-- Python `str.rfind` over an already-sliced region: last index of `c`
in `t`, or `-1` when absent. -/
def rfind (c : Char) (t : List Char) : Int :=
  match rfindAux c t with
  | some i => (i : Int)
  | none => -1

/-- `offset_to_yx(content, offset)` (lines 6-21): clamp the offset from
above by `len(content)`, count the newlines in `content[0:offset]` for the
row, and measure the distance from the last newline in that region for the
column (Python `count`/`rfind` slice semantics for the region bound). -/
def offset_to_yx (content : List Char) (offset : Int) : Int × Int :=
  let off := min (content.length : Int) offset
  let region := content.take (pyIdx content.length off)
  let last := rfind '\n' region
  ((region.count '\n' : Int), if last = -1 then off else off - last - 1)

/-- `content.split('\n')` (lines 113, 130). -/
def splitNl : List Char → List (List Char)
  | [] => [[]]
  | c :: rest =>
    if c = '\n' then [] :: splitNl rest
    else
      match splitNl rest with
      | [] => [[c]]
      | l :: ls => (c :: l) :: ls

/-- `total_lines = len(content.split('\n'))` (lines 113-114). -/
def totalLines (c : List Char) : Nat := (splitNl c).length

/-- One row of the trace, after the numeric cells have been converted:
`Time`, `File`, `RangeOffset`, `RangeLength`, `Text`, `Type`. -/
structure Event where
  time : Int
  file : String
  rangeOffset : Int
  rangeLength : Int
  text : Option (List Char)
  type : String
  deriving DecidableEq

/-- The per-file dictionaries `file_states` / `scroll_states`
(lines 55-56, 85-87): entries start at `""` / `0`, which a total function
with those defaults models faithfully, since lines 85-87 only ever insert
the defaults. -/
structure ReplayState where
  content : String → List Char
  scroll : String → Int

def initState : ReplayState := ⟨fun _ => [], fun _ => 0⟩

/-- Lines 91-101: the content update for the active file. `"TERMINAL"`
appends decoded text plus a newline, ignoring offset and length; any other
file goes through `apply_change`. -/
def updateContent (st : String → List Char) (e : Event) : String → List Char :=
  let newC :=
    if e.file = "TERMINAL" then
      st e.file ++ decodeText (textOrEmpty e.text) ++ ['\n']
    else
      apply_change (st e.file) e.rangeOffset e.rangeLength e.text
  fun f => if f = e.file then newC else st f

/-- Lines 111-122: the scroll update. For the terminal, jump to the tail
only when `total_lines > visible_height`; otherwise keep the cursor's line
inside the viewport band. -/
def updateScroll (scroll : Int) (c : List Char) (cursorY vh : Int)
    (isTerminal : Bool) : Int :=
  if isTerminal then
    if (totalLines c : Int) > vh then max 0 ((totalLines c : Int) - vh)
    else scroll
  else
    if cursorY < scroll then cursorY
    else if cursorY ≥ scroll + vh then cursorY - vh + 1
    else scroll

/-- The cursor reported for an event (lines 104-105): `offset_to_yx` of the
updated content at the event's `RangeOffset`. -/
def stepCursor (s : ReplayState) (e : Event) : Int × Int :=
  offset_to_yx (updateContent s.content e e.file) e.rangeOffset

/-- One iteration of the replay loop (lines 81-124) for one event, given the
frame's `visible_height` (`vh`, recomputed each frame from the terminal
geometry): update the active file's content, compute the cursor, update the
active file's scroll state. -/
def step (s : ReplayState) (e : Event) (vh : Int) : ReplayState :=
  let content' := updateContent s.content e
  let c := content' e.file
  let cy := (offset_to_yx c e.rangeOffset).1
  let sy := updateScroll (s.scroll e.file) c cy vh (e.file == "TERMINAL")
  { content := content', scroll := fun f => if f = e.file then sy else s.scroll f }

/-- Replay a list of events, each paired with that frame's viewport
height. -/
def replay (s : ReplayState) (evs : List (Event × Int)) : ReplayState :=
  evs.foldl (fun s p => step s p.1 p.2) s

/-- A speed-control key press (lines 66-67): `KEY_UP` or `KEY_DOWN`. -/
inductive SpeedKey where
  | up
  | down
  deriving DecidableEq

/-- `speed_factor = min(100, speed_factor * 1.5)` (line 66), in exact
arithmetic. -/
def speedUp (s : ℚ) : ℚ := min 100 (s * (3 / 2))

/-- `speed_factor = max(0.1, speed_factor / 1.5)` (line 67), in exact
arithmetic. -/
def speedDown (s : ℚ) : ℚ := max (1 / 10) (s / (3 / 2))

/-- The speed factor after a sequence of speed-control key presses, starting
from the initial `--speed` value. -/
def applySpeed (s : ℚ) (keys : List SpeedKey) : ℚ :=
  keys.foldl (fun a k => match k with | .up => speedUp a | .down => speedDown a) s

/-- The `clamp(x, lo, hi)` of the spec's length law (spec section 8). -/
def clampInt (x lo hi : Int) : Int := max lo (min x hi)

/-- Modelled from the spec (section 4.2 PositionMapper), for comparison with
`offset_to_yx`: for an already-clamped offset, `line` is the number of
newline characters strictly before the offset and `col` is
`offset - (index of nearest preceding newline + 1)`, or the offset itself
when there is no preceding newline. -/
def specLineCol (s : List Char) (o : Nat) : Int × Int :=
  (((s.take o).count '\n' : Int),
   match rfindAux '\n' (s.take o) with
   | some i => (o : Int) - (i : Int) - 1
   | none => (o : Int))

/-- Row number of the clamped offset `o`: newlines before it. -/
def yOf (s : List Char) (o : Nat) : Nat := (s.take o).count '\n'

/-- Column of the clamped offset `o`: distance from the newline before it. -/
def xOf (s : List Char) (o : Nat) : Nat :=
  match rfindAux '\n' (s.take o) with
  | some i => o - i - 1
  | none => o

/-- One raw row of the CSV, before the numeric conversions: a numeric cell
may be NaN (`none`), and `int(...)` on it raises. -/
structure Row where
  time : Int
  file : String
  rangeOffset : Option Int
  rangeLength : Option Int
  text : Option (List Char)
  type : String
  deriving DecidableEq

/-- Python `int(x)` on a possibly-NaN cell: a NaN float cannot be converted
and raises `ValueError`. -/
def pyInt : Option Int → Except Unit Int
  | some n => .ok n
  | none => .error ()

/-- One loop iteration at the row level, with the exceptions `int(...)` can
raise. The `"TERMINAL"` branch (lines 91-96) never converts `RangeLength`;
the cursor computation (line 105) converts `RangeOffset` in both branches.
The event's `rangeLength` is unused by `step` in the terminal branch, so `0`
stands in for the unconverted cell there. -/
def rowStep (s : ReplayState) (r : Row) (vh : Int) : Except Unit ReplayState :=
  if r.file = "TERMINAL" then
    match pyInt r.rangeOffset with
    | .ok o => .ok (step s ⟨r.time, r.file, o, 0, r.text, r.type⟩ vh)
    | .error e => .error e
  else
    match pyInt r.rangeOffset with
    | .error e => .error e
    | .ok o =>
      match pyInt r.rangeLength with
      | .error e => .error e
      | .ok l => .ok (step s ⟨r.time, r.file, o, l, r.text, r.type⟩ vh)

/-- Outcome of `pd.read_csv(filepath)` (line 49): the rows, a
`FileNotFoundError`, or some other exception (for example an unreadable or
malformed file). -/
inductive LoadOutcome where
  | ok (rows : List Row)
  | notFound
  | otherError

/-- How a session ends: a caught missing-file error (printed and returned,
lines 50-52), an uncaught exception, or normal completion. -/
inductive SessionResult where
  | fileError
  | crashed
  | completed (s : ReplayState)

/-- The session skeleton of `replay_trace` (lines 48-124): load, catching
only `FileNotFoundError`; then fold the per-row step over the rows (the
external sort collaborator is abstracted: rows are taken in the given
order), where the first uncaught exception aborts the session. -/
def runReplay (load : LoadOutcome) (vh : Int) : SessionResult :=
  match load with
  | .notFound => .fileError
  | .otherError => .crashed
  | .ok rows =>
    match rows.foldlM (fun s r => rowStep s r vh) initState with
    | .ok s => .completed s
    | .error _ => .crashed

/-- Scenario A event (spec section 8): `(offset=0, length=0, text="hello")`
against the empty file `"a.txt"`. -/
def scenarioAEvent : Event := ⟨0, "a.txt", 0, 0, some ("hello".toList), "edit"⟩

/-- Scenario B event (spec section 8): `(offset=5, length=0,
text="\n world")` with the two-character escape, against `"a.txt"` holding
`"hello"`. -/
def scenarioBEvent : Event := ⟨1, "a.txt", 5, 0, some ("\\n world".toList), "edit"⟩

/-- A terminal event whose decoded text spans four lines. -/
def termEv1 : Event := ⟨0, "TERMINAL", 0, 0, some ("a\\nb\\nc\\nd".toList), "out"⟩

/-- A second terminal event, with nonzero range fields. -/
def termEv2 : Event := ⟨1, "TERMINAL", -4, 9, some ("e".toList), "out"⟩

/-! ## Theorems -/

/-- C1: the spec's length law fails for a negative `RangeLength`: at
`content = "abc"`, `offset = 1`, `length = -2`, `text = ""` the result is
`"ac"` (length 2, Python's negative slice index re-reads the tail from
position `-1`), while the law predicts length 3 (`removedCount` clamped
to 0). -/
theorem C1_counterexample :
    ((apply_change ("abc".toList) 1 (-2) (some [])).length : Int)
      ≠ max (("abc".toList).length : Int) 1
          - clampInt (-2) 0 (max (("abc".toList).length : Int) 1 - 1)
          + ((decodeText []).length : Int) := by decide

/-- C2: Scenario A's reported cursor is not `(0, 5)`: the code computes the
cursor at the event's `RangeOffset` (the start of the edit), giving
`(0, 0)`, even though the content does become `"hello"`. -/
theorem C2_counterexample :
    (updateContent initState.content scenarioAEvent) "a.txt" = "hello".toList ∧
    stepCursor initState scenarioAEvent ≠ ((0 : Int), (5 : Int)) := by decide

/-- C2 (amended): Scenario A yields content `"hello"` with cursor `(0, 0)`,
and Scenario B yields `"hello\n world"` (real newline) with cursor `(0, 5)`:
the cursor is reported at the event's `RangeOffset`, not after the inserted
text. -/
theorem C2_scenarios :
    (step initState scenarioAEvent 10).content "a.txt" = "hello".toList ∧
    stepCursor initState scenarioAEvent = ((0 : Int), (0 : Int)) ∧
    (step (step initState scenarioAEvent 10) scenarioBEvent 10).content "a.txt"
      = "hello\n world".toList ∧
    stepCursor (step initState scenarioAEvent 10) scenarioBEvent
      = ((0 : Int), (5 : Int)) := by decide

/-- C4: the tail formula fails when the viewport grows: after a terminal
event leaving 5 lines at viewport height 1 (scroll 4) and another leaving
6 lines at viewport height 10, the scroll stays 4, not
`max 0 (totalLines - viewportHeight) = 0` — the code only rewrites the
scroll when `total_lines > visible_height`. -/
theorem C4_counterexample :
    (replay initState [(termEv1, 1), (termEv2, 10)]).scroll "TERMINAL"
      ≠ max 0 ((totalLines ((replay initState [(termEv1, 1), (termEv2, 10)]).content
          "TERMINAL") : Int) - 10) := by decide

/-- C4 (amended): for a terminal event, the scroll is set to
`max 0 (totalLines - viewportHeight)` when `totalLines > viewportHeight`,
and is left unchanged otherwise. -/
theorem C4_terminal_scroll (s : ReplayState) (e : Event) (vh : Int)
    (h : e.file = "TERMINAL") :
    (step s e vh).scroll "TERMINAL"
      = if vh < (totalLines (updateContent s.content e "TERMINAL") : Int)
        then max 0 ((totalLines (updateContent s.content e "TERMINAL") : Int) - vh)
        else s.scroll "TERMINAL" := by
  simp [step, updateScroll, h]

/-- C4 witness: the amended terminal-scroll rule evaluated on a concrete
event and viewport. -/
theorem C4_terminal_scroll_witness :
    termEv1.file = "TERMINAL" ∧
    (step initState termEv1 1).scroll "TERMINAL"
      = if (1 : Int) < (totalLines (updateContent initState.content termEv1
            "TERMINAL") : Int)
        then max 0 ((totalLines (updateContent initState.content termEv1
            "TERMINAL") : Int) - 1)
        else initState.scroll "TERMINAL" :=
  ⟨rfl, C4_terminal_scroll initState termEv1 1 rfl⟩

/-- C5: a negative offset is not clamped to 0: on empty content with
`offset = -1` the code returns `(0, -1)`, not the value at the clamped
offset 0, which is `(0, 0)`. -/
theorem C5_counterexample :
    offset_to_yx [] (-1)
      ≠ offset_to_yx [] (clampInt (-1) 0 ((([] : List Char)).length : Int)) := by
  decide

/-- C6: for `viewportHeight = 0` (a two-row terminal) the band
`[scrollTop, scrollTop + viewportHeight)` is empty, so the cursor line 0
falls outside it: the update yields scroll 1 from cursor 0, prior scroll 0. -/
theorem C6_counterexample :
    ¬ (updateScroll 0 [] 0 0 false ≤ 0 ∧
       (0 : Int) < updateScroll 0 [] 0 0 false + 0) := by decide

/-- C6 (amended): for a non-terminal file, whenever `viewportHeight ≥ 1`,
the updated scroll keeps the cursor line inside
`[scrollTop, scrollTop + viewportHeight)`. -/
theorem C6_cursor_visible (scroll cy vh : Int) (c : List Char)
    (hcy : 0 ≤ cy) (hs : 0 ≤ scroll) (hvh : 1 ≤ vh) :
    updateScroll scroll c cy vh false ≤ cy ∧
    cy < updateScroll scroll c cy vh false + vh := by
  simp only [updateScroll, Bool.false_eq_true, if_false]
  split_ifs <;> omega

/-- C6 witness: the visible-band property evaluated at cursor line 5,
prior scroll 0, viewport height 2. -/
theorem C6_cursor_visible_witness :
    (0 : Int) ≤ 5 ∧ (0 : Int) ≤ 0 ∧ (1 : Int) ≤ 2 ∧
    (updateScroll 0 [] 5 2 false ≤ 5 ∧
     (5 : Int) < updateScroll 0 [] 5 2 false + 2) :=
  ⟨by decide, by decide, by decide,
   C6_cursor_visible 0 5 2 [] (by decide) (by decide) (by decide)⟩

/-- C7: the bound fails for the initial value: starting the program with
`--speed 200` and pressing no key leaves the speed factor at 200, outside
`[0.1, 100]`. -/
theorem C7_counterexample :
    ¬ ((1 : ℚ) / 10 ≤ applySpeed 200 [] ∧ applySpeed 200 [] ≤ 100) := by
  simp only [applySpeed, List.foldl_nil]
  norm_num

/-- C1 (amended): for a non-negative offset and non-negative length, the
result length of `applyChange` is
`max (len content) offset - removedCount + len decodedText` with
`removedCount = clamp(length, 0, max (len content) offset - offset)`;
a length exceeding the remaining trailing characters is clamped, a negative
length is not. -/
theorem C1_length_law (c : List Char) (o l : Int) (t : List Char)
    (ho : 0 ≤ o) (hl : 0 ≤ l) :
    ((apply_change c o l (some t)).length : Int)
      = max (c.length : Int) o
          - clampInt l 0 (max (c.length : Int) o - o)
          + ((decodeText t).length : Int) := by
  have hplen : ((padded c o).length : Int) = max (c.length : Int) o := by
    rw [padded]
    split_ifs with h
    · simp only [List.length_append, List.length_replicate]; omega
    · omega
  rw [apply_change, textOrEmpty]
  rw [pyIdx, pyIdx, if_neg (by omega), if_neg (by omega)]
  simp only [List.length_append, List.length_take, List.length_drop, clampInt]
  omega

/-- C1 witness: the length law evaluated at content `"hello"`, offset 7,
length 99, text `"ab\n"` with the two-character escape. -/
theorem C1_length_law_witness :
    (0 : Int) ≤ 7 ∧ (0 : Int) ≤ 99 ∧
    ((apply_change ("hello".toList) 7 99 (some ("ab\\n".toList))).length : Int)
      = max (("hello".toList).length : Int) 7
          - clampInt 99 0 (max (("hello".toList).length : Int) 7 - 7)
          + ((decodeText ("ab\\n".toList)).length : Int) :=
  ⟨by decide, by decide,
   C1_length_law ("hello".toList) 7 99 ("ab\\n".toList) (by decide) (by decide)⟩

/-- C7 (amended): from any initial speed factor inside `[0.1, 100]` (in
particular the default 20.0), the speed factor stays inside `[0.1, 100]`
after any sequence of speed-up and speed-down key presses. -/
theorem C7_speed_in_range (s : ℚ) (h1 : 1 / 10 ≤ s) (h2 : s ≤ 100)
    (keys : List SpeedKey) :
    1 / 10 ≤ applySpeed s keys ∧ applySpeed s keys ≤ 100 := by
  induction keys generalizing s with
  | nil => exact ⟨h1, h2⟩
  | cons k ks ih =>
    simp only [applySpeed, List.foldl_cons] at *
    cases k with
    | up =>
      refine ih (speedUp s) ?_ ?_
      · exact le_min (by norm_num) (by linarith)
      · exact min_le_left _ _
    | down =>
      refine ih (speedDown s) ?_ ?_
      · exact le_max_left _ _
      · refine max_le (by norm_num) ?_
        rw [div_le_iff₀ (by norm_num : (0 : ℚ) < 3 / 2)]
        linarith

/-- C7 witness: the clamping invariant evaluated from the default speed 20
over the press sequence up, up, down. -/
theorem C7_speed_in_range_witness :
    (1 : ℚ) / 10 ≤ 20 ∧ (20 : ℚ) ≤ 100 ∧
    (1 / 10 ≤ applySpeed 20 [SpeedKey.up, SpeedKey.up, SpeedKey.down] ∧
     applySpeed 20 [SpeedKey.up, SpeedKey.up, SpeedKey.down] ≤ 100) :=
  ⟨by norm_num, by norm_num,
   C7_speed_in_range 20 (by norm_num) (by norm_num) _⟩

/-- Appending over a run of terminal events, generalised over the starting
state. -/
theorem replay_terminal_content (evs : List (Event × Int)) :
    ∀ s : ReplayState, (∀ p ∈ evs, p.1.file = "TERMINAL") →
      (replay s evs).content "TERMINAL"
        = s.content "TERMINAL"
          ++ (evs.map fun p => decodeText (textOrEmpty p.1.text) ++ ['\n']).flatten := by
  induction evs with
  | nil => intro s _; simp [replay]
  | cons p ps ih =>
    intro s h
    have hp : p.1.file = "TERMINAL" := h p (by simp)
    have hrest : ∀ q ∈ ps, q.1.file = "TERMINAL" := fun q hq => h q (by simp [hq])
    simp only [replay, List.foldl_cons] at ih ⊢
    rw [ih (step s p.1 p.2) hrest]
    have hc : (step s p.1 p.2).content "TERMINAL"
        = s.content "TERMINAL" ++ (decodeText (textOrEmpty p.1.text) ++ ['\n']) := by
      simp [step, updateContent, hp]
    rw [hc]
    simp [List.append_assoc]

/-- C8: after any sequence of events whose `File` is `"TERMINAL"`, the
terminal stream's content is the ordered concatenation of each event's
decoded text followed by one newline, whatever the events' `RangeOffset`
and `RangeLength` are. -/
theorem C8_terminal_stream (evs : List (Event × Int))
    (h : ∀ p ∈ evs, p.1.file = "TERMINAL") :
    (replay initState evs).content "TERMINAL"
      = (evs.map fun p => decodeText (textOrEmpty p.1.text) ++ ['\n']).flatten := by
  simpa [initState] using replay_terminal_content evs initState h

/-- C8 witness: the append-only law evaluated on two terminal events with
nonzero, differing range fields. -/
theorem C8_terminal_stream_witness :
    (∀ p ∈ [(termEv1, 1), (termEv2, 10)], (Prod.fst p).file = "TERMINAL") ∧
    (replay initState [(termEv1, 1), (termEv2, 10)]).content "TERMINAL"
      = ([(termEv1, 1), (termEv2, 10)].map
          fun p => decodeText (textOrEmpty p.1.text) ++ ['\n']).flatten :=
  ⟨by decide, C8_terminal_stream [(termEv1, 1), (termEv2, 10)] (by decide)⟩

/-- Rows whose numeric cells are all present never raise. -/
theorem foldlM_rowStep_ok (vh : Int) (rows : List Row) :
    ∀ s : ReplayState,
      (∀ r ∈ rows, r.rangeOffset ≠ none ∧ r.rangeLength ≠ none) →
      ∃ s', rows.foldlM (fun s r => rowStep s r vh) s = Except.ok s' := by
  induction rows with
  | nil => intro s _; exact ⟨s, rfl⟩
  | cons r rs ih =>
    intro s h
    obtain ⟨ho, hl⟩ := h r (by simp)
    obtain ⟨o, hro⟩ := Option.ne_none_iff_exists'.mp ho
    obtain ⟨l, hrl⟩ := Option.ne_none_iff_exists'.mp hl
    have hrest : ∀ q ∈ rs, q.rangeOffset ≠ none ∧ q.rangeLength ≠ none :=
      fun q hq => h q (by simp [hq])
    by_cases hf : r.file = "TERMINAL" <;>
      · obtain ⟨s', hs'⟩ := ih _ hrest
        refine ⟨s', ?_⟩
        simp only [List.foldlM_cons, rowStep, hf, hro, hrl, pyInt]
        simpa using hs'

/-- C9 (amended): a missing log file is caught, reported and the replay loop
is never entered; and a loaded log whose numeric cells are all present never
aborts. But this is not the only fatal condition: a row with a missing
(NaN) `RangeOffset` or `RangeLength` makes `int(...)` raise and aborts the
session uncaught. -/
theorem C9_fatal_conditions (vh : Int) (rows : List Row)
    (h : ∀ r ∈ rows, r.rangeOffset ≠ none ∧ r.rangeLength ≠ none) :
    runReplay LoadOutcome.notFound vh = SessionResult.fileError ∧
    runReplay (LoadOutcome.ok rows) vh ≠ SessionResult.crashed := by
  refine ⟨rfl, ?_⟩
  obtain ⟨s', hs'⟩ := foldlM_rowStep_ok vh rows initState h
  simp [runReplay, hs']

/-- C9: a loaded log can still abort the session: a single row whose
`RangeOffset` cell is missing (NaN) raises in `int(...)` and crashes the
replay, so a missing log file is not the only fatal condition. -/
theorem C9_counterexample :
    runReplay (LoadOutcome.ok [⟨0, "main.py", none, some 0, some ("x".toList), "t"⟩]) 5
      = SessionResult.crashed := rfl

/-- C9 witness: the amended fatal-condition statement evaluated at a
one-row well-formed log. -/
theorem C9_fatal_conditions_witness :
    (∀ r ∈ [(⟨0, "main.py", some 0, some 0, some ("x".toList), "t"⟩ : Row)],
        r.rangeOffset ≠ none ∧ r.rangeLength ≠ none) ∧
    (runReplay LoadOutcome.notFound 5 = SessionResult.fileError ∧
     runReplay (LoadOutcome.ok
        [⟨0, "main.py", some 0, some 0, some ("x".toList), "t"⟩]) 5
       ≠ SessionResult.crashed) :=
  ⟨by decide, C9_fatal_conditions 5 _ (by decide)⟩

/-- A last-occurrence index returned by `rfindAux` is inside the list. -/
theorem rfindAux_lt_length {c : Char} : ∀ {t : List Char} {i : Nat},
    rfindAux c t = some i → i < t.length := by
  intro t
  induction t with
  | nil => intro i h; simp [rfindAux] at h
  | cons x xs ih =>
    intro i h
    rw [rfindAux] at h
    cases hx : rfindAux c xs with
    | some j =>
      rw [hx] at h
      have hj := ih hx
      simp only [Option.some.injEq] at h
      simp only [List.length_cons]
      omega
    | none =>
      rw [hx] at h
      by_cases hxc : x = c
      · rw [if_pos hxc] at h
        simp only [Option.some.injEq] at h
        simp only [List.length_cons]
        omega
      · rw [if_neg hxc] at h
        exact absurd h (by simp)

/-- When `rfindAux` finds nothing, the list holds no occurrence. -/
theorem count_eq_zero_of_rfindAux_none {c : Char} : ∀ {t : List Char},
    rfindAux c t = none → t.count c = 0 := by
  intro t
  induction t with
  | nil => intro _; simp
  | cons x xs ih =>
    intro h
    rw [rfindAux] at h
    cases hx : rfindAux c xs with
    | some j => rw [hx] at h; exact absurd h (by simp)
    | none =>
      rw [hx] at h
      by_cases hxc : x = c
      · rw [if_pos hxc] at h; exact absurd h (by simp)
      · have hcx : c ≠ x := fun hcx => hxc hcx.symm
        simp [List.count_cons, hcx, ih hx]

/-- Splitting on newlines always yields at least one line. -/
theorem splitNl_ne_nil (s : List Char) : splitNl s ≠ [] := by
  cases s with
  | nil => simp [splitNl]
  | cons c rest =>
    rw [splitNl]
    split_ifs
    · simp
    · cases h : splitNl rest <;> simp

/-- `offset_to_yx` only ever looks at the clamped offset, so clamping the
argument by the content length changes nothing. -/
theorem offset_to_yx_min (s : List Char) (o : Int) :
    offset_to_yx s (min o (s.length : Int)) = offset_to_yx s o := by
  have h : min (s.length : Int) (min o (s.length : Int)) = min (s.length : Int) o := by
    omega
  simp only [offset_to_yx, h]

/-- For an in-range natural offset, `offset_to_yx` computes the newline
count and the distance from the preceding newline. -/
theorem offset_to_yx_eq_of_le (s : List Char) (o : Nat) (ho : o ≤ s.length) :
    offset_to_yx s (o : Int) = ((yOf s o : Int), (xOf s o : Int)) := by
  have hmin : min ((s.length : Nat) : Int) (o : Int) = (o : Int) := by omega
  have hpy : pyIdx s.length ((o : Nat) : Int) = o := by
    rw [pyIdx, if_neg (by omega)]
    omega
  simp only [offset_to_yx, hmin, hpy]
  rw [yOf, xOf]
  cases h : rfindAux '\n' (s.take o) with
  | none => simp [rfind, h]
  | some i =>
    have hi : i < (s.take o).length := rfindAux_lt_length h
    have hio : i < o := by
      have := List.length_take o s
      omega
    simp only [rfind, h, Prod.mk.injEq]
    refine ⟨trivial, ?_⟩
    rw [if_neg (by omega : ¬ ((i : Int) = -1))]
    omega

/-- The row/column pair of an in-range offset names an existing line of the
newline-split content, at or before that line's end. -/
theorem validPosAux : ∀ (s : List Char) (o : Nat), o ≤ s.length →
    yOf s o < (splitNl s).length ∧
    xOf s o ≤ ((splitNl s).getD (yOf s o) []).length := by
  intro s
  induction s with
  | nil =>
    intro o ho
    have h0 : o = 0 := Nat.le_zero.mp ho
    subst h0
    simp [yOf, xOf, splitNl, rfindAux]
  | cons c s ih =>
    intro o ho
    cases o with
    | zero =>
      refine ⟨?_, ?_⟩
      · have h1 : yOf (c :: s) 0 = 0 := by simp [yOf]
        rw [h1]
        exact List.length_pos.mpr (splitNl_ne_nil (c :: s))
      · have h2 : xOf (c :: s) 0 = 0 := by simp [xOf, rfindAux]
        rw [h2]
        exact Nat.zero_le _
    | succ o' =>
      have ho' : o' ≤ s.length := by simpa using ho
      obtain ⟨ih1, ih2⟩ := ih o' ho'
      by_cases hc : c = '\n'
      · subst hc
        have hy : yOf ('\n' :: s) (o' + 1) = yOf s o' + 1 := by
          simp [yOf, List.take_succ_cons, List.count_cons]
        have hx : xOf ('\n' :: s) (o' + 1) = xOf s o' := by
          rw [xOf, xOf, List.take_succ_cons, rfindAux]
          cases hfa : rfindAux '\n' (s.take o') with
          | some i => simp
          | none => simp
        have hsplit : splitNl ('\n' :: s) = [] :: splitNl s := by simp [splitNl]
        rw [hy, hx, hsplit]
        exact ⟨by simpa using Nat.succ_lt_succ ih1, by simpa [List.getD_cons_succ] using ih2⟩
      · have hy : yOf (c :: s) (o' + 1) = yOf s o' := by
          have hcx : ¬ ('\n' = c) := fun hcx => hc hcx.symm
          simp [yOf, List.take_succ_cons, List.count_cons, hcx]
        cases hsp : splitNl s with
        | nil => exact absurd hsp (splitNl_ne_nil s)
        | cons l ls =>
          have hsplit : splitNl (c :: s) = (c :: l) :: ls := by
            rw [splitNl, if_neg hc, hsp]
          rw [hy, hsplit]
          rw [hsp] at ih1 ih2
          cases hfa : rfindAux '\n' (s.take o') with
          | some i =>
            have hx : xOf (c :: s) (o' + 1) = xOf s o' := by
              rw [xOf, xOf, List.take_succ_cons, rfindAux, hfa]
              simp
            rw [hx]
            refine ⟨by simpa using ih1, ?_⟩
            cases hyv : yOf s o' with
            | zero =>
              rw [hyv] at ih2
              simp only [List.getD_cons_zero] at ih2 ⊢
              simp only [List.length_cons]
              omega
            | succ k =>
              rw [hyv] at ih2
              simpa [List.getD_cons_succ] using ih2
          | none =>
            have hy0 : yOf s o' = 0 := count_eq_zero_of_rfindAux_none hfa
            have hx : xOf (c :: s) (o' + 1) = o' + 1 := by
              rw [xOf, List.take_succ_cons, rfindAux, hfa]
              simp [hc]
            have hxs : xOf s o' = o' := by rw [xOf, hfa]
            rw [hx, hy0]
            rw [hy0, hxs] at ih2
            simp only [List.getD_cons_zero] at ih2 ⊢
            refine ⟨by simp, ?_⟩
            simp only [List.length_cons]
            omega

/-- The spec's words for the position map agree with the row/column pair on
a clamped offset. -/
theorem specLineCol_eq (s : List Char) (o : Nat) (ho : o ≤ s.length) :
    specLineCol s o = ((yOf s o : Int), (xOf s o : Int)) := by
  rw [specLineCol, yOf, xOf]
  cases h : rfindAux '\n' (s.take o) with
  | none => simp
  | some i =>
    have hi : i < (s.take o).length := rfindAux_lt_length h
    have hio : i < o := by
      have := List.length_take o s
      omega
    simp only [Prod.mk.injEq]
    exact ⟨trivial, by omega⟩

/-- C5 (amended): for a non-negative offset, `offset_to_yx` behaves as if
the offset were clamped to at most `len(content)`, and on that clamped
offset it returns the spec's line/column values; a negative offset, however,
is not clamped to 0 (Python slice semantics apply, and the column can be
negative). -/
theorem C5_offset_clamp (s : List Char) (o : Int) (h : 0 ≤ o) :
    offset_to_yx s o = offset_to_yx s (min o (s.length : Int)) ∧
    offset_to_yx s o = specLineCol s (min o (s.length : Int)).toNat := by
  obtain ⟨oN, rfl⟩ := Int.eq_ofNat_of_zero_le h
  have hcast : ((min oN s.length : Nat) : Int) = min ((oN : Nat) : Int) (s.length : Int) := by
    omega
  have hk : min oN s.length ≤ s.length := Nat.min_le_right _ _
  have h1 : offset_to_yx s ((oN : Nat) : Int)
      = offset_to_yx s (min ((oN : Nat) : Int) (s.length : Int)) :=
    (offset_to_yx_min s _).symm
  refine ⟨h1, ?_⟩
  rw [h1, ← hcast, offset_to_yx_eq_of_le s _ hk,
    (by omega : (((min oN s.length : Nat) : Int)).toNat = min oN s.length)]
  exact (specLineCol_eq s _ hk).symm

/-- C5 witness: the clamping behaviour evaluated at content `"a\nb"` and the
out-of-range offset 99. -/
theorem C5_offset_clamp_witness :
    (0 : Int) ≤ 99 ∧
    (offset_to_yx ("a\nb".toList) 99
        = offset_to_yx ("a\nb".toList) (min 99 (("a\nb".toList).length : Int)) ∧
     offset_to_yx ("a\nb".toList) 99
        = specLineCol ("a\nb".toList) ((min 99 (("a\nb".toList).length : Int)).toNat)) :=
  ⟨by decide, C5_offset_clamp ("a\nb".toList) 99 (by decide)⟩

/-- C10: for an offset inside `[0, len(content)]`, the reported cursor names
an existing line of the newline-split content (`0 ≤ line < number of
lines`) with a column between 0 and that line's length. -/
theorem C10_cursor_in_bounds (s : List Char) (o : Int)
    (h0 : 0 ≤ o) (h1 : o ≤ (s.length : Int)) :
    0 ≤ (offset_to_yx s o).1 ∧
    (offset_to_yx s o).1.toNat < (splitNl s).length ∧
    0 ≤ (offset_to_yx s o).2 ∧
    (offset_to_yx s o).2
      ≤ (((splitNl s).getD (offset_to_yx s o).1.toNat []).length : Int) := by
  obtain ⟨oN, rfl⟩ := Int.eq_ofNat_of_zero_le h0
  have ho : oN ≤ s.length := by exact_mod_cast h1
  rw [offset_to_yx_eq_of_le s oN ho]
  obtain ⟨g1, g2⟩ := validPosAux s oN ho
  refine ⟨Int.natCast_nonneg _, ?_, Int.natCast_nonneg _, ?_⟩
  · simpa using g1
  · simpa using g2

/-- C10 witness: the valid-position property evaluated at content
`"hello\n world"` and offset 7. -/
theorem C10_cursor_in_bounds_witness :
    (0 : Int) ≤ 7 ∧ (7 : Int) ≤ (("hello\n world".toList).length : Int) ∧
    (0 ≤ (offset_to_yx ("hello\n world".toList) 7).1 ∧
     (offset_to_yx ("hello\n world".toList) 7).1.toNat
        < (splitNl ("hello\n world".toList)).length ∧
     0 ≤ (offset_to_yx ("hello\n world".toList) 7).2 ∧
     (offset_to_yx ("hello\n world".toList) 7).2
        ≤ (((splitNl ("hello\n world".toList)).getD
            (offset_to_yx ("hello\n world".toList) 7).1.toNat []).length : Int)) :=
  ⟨by decide, by decide,
   C10_cursor_in_bounds ("hello\n world".toList) 7 (by decide) (by decide)⟩

end CrowdCodePlayer
